import Mathlib

/-!
Verification of the cyberpink-christmas particle scene.

The development shallowly embeds the TypeScript sources:
- types.ts: the two-state application mode and its theme constants;
- App.tsx: the click-driven mode toggle;
- services/mathUtils.ts: the three point-sampling functions
  (getRandomSpherePoint, getTreePosition, getRibbonPosition), with the
  Math.random() draws passed in as explicit parameters;
- components/ChristmasTree.tsx: the per-particle startup data and the
  per-frame animation step (transition smoothing and instance updates);
- components/GestureController.tsx: the hand-gesture classifier.

Real-valued quantities are modelled over the real numbers; each call to
Math.random() becomes an explicit parameter ranging over [0, 1).
-/

namespace Cyberpink

/-- The application mode from types.ts: `enum AppMode { TREE, EXPLODE }`. -/
inductive AppMode
  | TREE
  | EXPLODE
deriving DecidableEq

/-- The click handler from App.tsx:
`setMode((prev) => (prev === AppMode.TREE ? AppMode.EXPLODE : AppMode.TREE))`. -/
def toggleMode (m : AppMode) : AppMode :=
  if m = AppMode.TREE then AppMode.EXPLODE else AppMode.TREE

noncomputable section

/-- THREE.MathUtils.lerp: `x + (y - x) * t` (no clamping). -/
def lerp (x y t : ℝ) : ℝ :=
  x + (y - x) * t

/-- The frame target from ChristmasTree.tsx:
`const target = mode === AppMode.EXPLODE ? 1 : 0`. -/
def modeTarget (m : AppMode) : ℝ :=
  if m = AppMode.EXPLODE then 1 else 0

/-- One per-frame update of the stored transition value, from ChristmasTree.tsx:
`transitionRef.current = THREE.MathUtils.lerp(transitionRef.current, target, delta * 2.5)`. -/
def transitionStep (mode : AppMode) (old delta : ℝ) : ℝ :=
  lerp old (modeTarget mode) (delta * 2.5)

/-- The stored transition value after a sequence of frames, each frame carrying
the mode seen that frame and its delta; the ref starts at 0
(`const transitionRef = useRef(0)`). -/
def transitionRun (frames : List (AppMode × ℝ)) : ℝ :=
  frames.foldl (fun acc fr => transitionStep fr.1 acc fr.2) 0

/-- A three-component vector, standing for THREE.Vector3. -/
structure Vec3 where
  x : ℝ
  y : ℝ
  z : ℝ

/-- Euclidean length of a vector (THREE.Vector3.length). -/
def normVec (p : Vec3) : ℝ :=
  Real.sqrt (p.x ^ 2 + p.y ^ 2 + p.z ^ 2)

/-- Math.cbrt, on the nonnegative draws the code feeds it. -/
def cbrt (x : ℝ) : ℝ :=
  x ^ ((1 : ℝ) / 3)

/-- getRandomSpherePoint from mathUtils.ts; the three Math.random() draws are
passed in as u, v, w. -/
def getRandomSpherePoint (radius u v w : ℝ) : Vec3 :=
  let theta := 2 * Real.pi * u
  let phi := Real.arccos (2 * v - 1)
  let r := cbrt w * radius
  let sinPhi := Real.sin phi
  ⟨r * sinPhi * Real.cos theta, r * sinPhi * Real.sin theta, r * Real.cos phi⟩

/-- getTreePosition from mathUtils.ts; u is the Math.random() draw behind the
fluffiness noise. -/
def getTreePosition (index total : ℕ) (radiusBase height yOffset u : ℝ) : Vec3 :=
  let goldenAngle := Real.pi * (3 - Real.sqrt 5)
  let y := ((index : ℝ) / (total : ℝ)) * height
  let radiusAtY := radiusBase * (1 - y / height)
  let theta := (index : ℝ) * goldenAngle
  let rNoise := (u - 0.5) * 0.5
  let finalRadius := max 0 (radiusAtY + rNoise)
  ⟨Real.cos theta * finalRadius, y + yOffset, Real.sin theta * finalRadius⟩

/-- getRibbonPosition from mathUtils.ts. -/
def getRibbonPosition (t radiusBase height turns yOffset : ℝ) : Vec3 :=
  let angle := t * Real.pi * 2 * turns
  let y := t * height
  let r := radiusBase * (1 - t) + 0.2
  ⟨Real.cos angle * r, y + yOffset, Real.sin angle * r⟩

/-- A MediaPipe hand landmark; GestureController.tsx reads only x and y. -/
structure Landmark where
  x : ℝ
  y : ℝ
  z : ℝ

/-- The landmark array of a detected hand, indexed as in MediaPipe
(0 = wrist, 4 = thumb tip, 8/12/16/20 = finger tips). -/
abbrev Hand := ℕ → Landmark

/-- Math.hypot on two arguments. -/
def hypot (dx dy : ℝ) : ℝ :=
  Real.sqrt (dx ^ 2 + dy ^ 2)

/-- Thumb-tip to index-tip distance, from predictWebcam:
`Math.hypot(thumbTip.x - indexTip.x, thumbTip.y - indexTip.y)`. -/
def pinchDistance (lm : Hand) : ℝ :=
  hypot ((lm 4).x - (lm 8).x) ((lm 4).y - (lm 8).y)

/-- Average fingertip-to-wrist distance over tips 8, 12, 16, 20, from
predictWebcam. -/
def avgTipDist (lm : Hand) : ℝ :=
  (hypot ((lm 8).x - (lm 0).x) ((lm 8).y - (lm 0).y) +
   hypot ((lm 12).x - (lm 0).x) ((lm 12).y - (lm 0).y) +
   hypot ((lm 16).x - (lm 0).x) ((lm 16).y - (lm 0).y) +
   hypot ((lm 20).x - (lm 0).x) ((lm 20).y - (lm 0).y)) / 4

/-- Pinch signal: `const isPinching = distance < 0.08`. -/
def isPinching (lm : Hand) : Prop :=
  pinchDistance lm < 0.08

/-- Open-hand signal: `const isOpen = avgDist > 0.3 && !isPinching`. -/
def isOpen (lm : Hand) : Prop :=
  avgTipDist lm > 0.3 ∧ ¬ isPinching lm

open scoped Classical in
/-- The mode triggers fired for a processed frame with a detected hand:
`if (isPinching) onModeTrigger(AppMode.TREE); if (isOpen)
onModeTrigger(AppMode.EXPLODE);`. -/
def firedModes (lm : Hand) : List AppMode :=
  (if isPinching lm then [AppMode.TREE] else []) ++
  (if isOpen lm then [AppMode.EXPLODE] else [])

/-- A concrete hand with every landmark at the origin, so the thumb and index
tips coincide: a pinch. -/
def lmPinch : Hand := fun _ => ⟨0, 0, 0⟩

/-- A concrete hand whose wrist and thumb tip sit at the origin and whose
remaining landmarks sit one unit away: an open hand. -/
def lmOpen : Hand := fun i =>
  if i = 0 ∨ i = 4 then ⟨0, 0, 0⟩ else ⟨1, 0, 0⟩

/-- Componentwise linear interpolation, THREE.Vector3.lerpVectors:
each component becomes v1 + (v2 - v1) * alpha. -/
def lerpVec (a b : Vec3) (t : ℝ) : Vec3 :=
  ⟨lerp a.x b.x t, lerp a.y b.y t, lerp a.z b.z t⟩

/-- THREE.Vector3.multiplyScalar on a fresh copy (clone().multiplyScalar(s)). -/
def smulVec (v : Vec3) (s : ℝ) : Vec3 :=
  ⟨v.x * s, v.y * s, v.z * s⟩

/-- The per-particle startup record of ChristmasTree.tsx:
`{ treePos, explodePos, scale }`. -/
structure Particle where
  treePos : Vec3
  explodePos : Vec3
  scale : ℝ

/-- The state the shared dummy object holds when its matrix is written to an
instance slot: position, Euler rotation and uniform scale. -/
structure Transform where
  position : Vec3
  rotation : Vec3
  scale : ℝ

/-- Particle counts and dimensions from ChristmasTree.tsx. -/
def COUNT_LEAVES : ℕ := 5000

def COUNT_ORNAMENTS : ℕ := 1500

def COUNT_RIBBON : ℕ := 800

def EXPLOSION_RADIUS : ℝ := 15

def TREE_HEIGHT : ℝ := 10

def TREE_RADIUS : ℝ := 3.5

def TREE_Y_OFFSET : ℝ := -3.5

/-- One entry of leavesData; uTree is the noise draw inside getTreePosition,
u v w the sphere draws, uScale the scale draw:
`scale: Math.random() * 0.15 + 0.05`. -/
def leafDatum (i : ℕ) (uTree u v w uScale : ℝ) : Particle :=
  { treePos := getTreePosition i COUNT_LEAVES TREE_RADIUS TREE_HEIGHT TREE_Y_OFFSET uTree
    explodePos := getRandomSpherePoint EXPLOSION_RADIUS u v w
    scale := uScale * 0.15 + 0.05 }

/-- One entry of ornamentsData; uY is the vertical jitter draw
(`treePos.y += (Math.random() - 0.5)`), and
`scale: Math.random() * 0.05 + 0.02`. -/
def ornamentDatum (i : ℕ) (uTree uY u v w uScale : ℝ) : Particle :=
  let base := getTreePosition i COUNT_ORNAMENTS (TREE_RADIUS * 1.1) TREE_HEIGHT
    TREE_Y_OFFSET uTree
  { treePos := { base with y := base.y + (uY - 0.5) }
    explodePos := getRandomSpherePoint (EXPLOSION_RADIUS * 1.2) u v w
    scale := uScale * 0.05 + 0.02 }

/-- One entry of ribbonData, at parameter t = i / COUNT_RIBBON; every ribbon
particle has `scale: 0.08`. -/
def ribbonDatum (i : ℕ) (u v w : ℝ) : Particle :=
  { treePos := getRibbonPosition ((i : ℝ) / (COUNT_RIBBON : ℝ)) (TREE_RADIUS + 0.2)
      TREE_HEIGHT 3.5 TREE_Y_OFFSET
    explodePos := getRandomSpherePoint (EXPLOSION_RADIUS * 1.5) u v w
    scale := 0.08 }

/-- The mutable scene state the useFrame callback touches: the startup data it
reads and the instance transforms, star pose and transition value it writes. -/
structure TreeState where
  leavesData : List Particle
  ornamentsData : List Particle
  ribbonData : List Particle
  starTreePos : Vec3
  starExplodePos : Vec3
  transition : ℝ
  groupRotY : ℝ
  leavesMat : List Transform
  ornamentsMat : List Transform
  ribbonMat : List Transform
  starPos : Vec3
  starRotZ : ℝ
  starRotY : ℝ
  starScale : ℝ

/-- The dummy state written for leaf i (e is clock.elapsedTime, t the
transition): position lerped between treePos and explodePos, a per-index
sparkle rotation, and scale shrunk by half at full explosion. -/
def leafTransform (e t : ℝ) (i : ℕ) (d : Particle) : Transform :=
  { position := lerpVec d.treePos d.explodePos t
    rotation := ⟨Real.sin (e * 0.5 + i), Real.cos (e * 0.3 + i), 0⟩
    scale := d.scale * (1 - t * 0.5) }

/-- The dummy state written for ornament i. -/
def ornamentTransform (e t : ℝ) (i : ℕ) (d : Particle) : Transform :=
  { position := lerpVec d.treePos d.explodePos t
    rotation := ⟨e + i, e + i, 0⟩
    scale := d.scale }

/-- The dummy state written for ribbon particle i: the explode target is a
clone of the stored explodePos scaled by 1.5
(`const explodePos = data.explodePos.clone().multiplyScalar(1.5)`). -/
def ribbonTransform (e t : ℝ) (i : ℕ) (d : Particle) : Transform :=
  { position := lerpVec d.treePos (smulVec d.explodePos 1.5) t
    rotation := ⟨e * 2 + i, (i : ℝ) * 0.1, 0⟩
    scale := d.scale }

/-- One pass of the useFrame callback of ChristmasTree.tsx: smooth the
transition, rotate the group, rewrite every instance transform from the
startup data, and pose the star. -/
def runFrame (mode : AppMode) (delta e gestureRotation : ℝ) (st : TreeState) :
    TreeState :=
  let t := transitionStep mode st.transition delta
  { st with
    transition := t
    groupRotY := e * 0.1 + gestureRotation * 5
    leavesMat := st.leavesData.mapIdx fun i d => leafTransform e t i d
    ornamentsMat := st.ornamentsData.mapIdx fun i d => ornamentTransform e t i d
    ribbonMat := st.ribbonData.mapIdx fun i d => ribbonTransform e t i d
    starPos := lerpVec st.starTreePos st.starExplodePos t
    starRotZ := e * 0.5
    starRotY := Real.sin e * 0.2
    starScale := (1 + Real.sin (e * 4) * 0.1) * (1 - t * 0.3) }

end

/-- C5: the mode inhabits exactly two states, and the click toggle is an
involution: it sends TREE to EXPLODE, EXPLODE to TREE, and applying it twice
restores the original mode. -/
theorem toggleMode_involution :
    (∀ m : AppMode, m = AppMode.TREE ∨ m = AppMode.EXPLODE) ∧
    toggleMode AppMode.TREE = AppMode.EXPLODE ∧
    toggleMode AppMode.EXPLODE = AppMode.TREE ∧
    (∀ m : AppMode, toggleMode (toggleMode m) = m) := by
  refine ⟨fun m => ?_, rfl, rfl, fun m => ?_⟩ <;> cases m <;> simp [toggleMode]

/-- C1: each frame, the transition target is binary and mode-driven (1 exactly
for EXPLODE, 0 exactly for TREE), the stored value is updated to
lerp(old, target, delta * 2.5), and for any smoothing factor f in [0, 1] the
lerp output is no farther from the target than the old value was, strictly
closer when old differs from the target and f is positive. -/
theorem transition_update_contracts (mode : AppMode) (old tv f : ℝ)
    (hf0 : 0 ≤ f) (hf1 : f ≤ 1) :
    (modeTarget mode = 1 ↔ mode = AppMode.EXPLODE) ∧
    (modeTarget mode = 0 ↔ mode = AppMode.TREE) ∧
    (∀ delta : ℝ, transitionStep mode old delta =
      lerp old (modeTarget mode) (delta * 2.5)) ∧
    |lerp old tv f - tv| ≤ |old - tv| ∧
    (old ≠ tv → 0 < f → |lerp old tv f - tv| < |old - tv|) := by
  have hkey : lerp old tv f - tv = (old - tv) * (1 - f) := by
    unfold lerp; ring
  have habs : |lerp old tv f - tv| = |old - tv| * (1 - f) := by
    rw [hkey, abs_mul, abs_of_nonneg (by linarith : (0:ℝ) ≤ 1 - f)]
  refine ⟨?_, ?_, fun _ => rfl, ?_, ?_⟩
  · cases mode <;> simp [modeTarget]
  · cases mode <;> simp [modeTarget]
  · rw [habs]
    calc |old - tv| * (1 - f) ≤ |old - tv| * 1 :=
          mul_le_mul_of_nonneg_left (by linarith) (abs_nonneg _)
      _ = |old - tv| := mul_one _
  · intro hne hf
    rw [habs]
    have hpos : 0 < |old - tv| := abs_pos.mpr (sub_ne_zero.mpr hne)
    calc |old - tv| * (1 - f) < |old - tv| * 1 :=
          mul_lt_mul_of_pos_left (by linarith) hpos
      _ = |old - tv| := mul_one _

/-- Witness instantiating the transition contraction theorem at mode TREE,
old value 1, target value 0, smoothing factor one half. -/
theorem transition_update_contracts_witness :
    ((0:ℝ) ≤ 1/2 ∧ (1/2:ℝ) ≤ 1) ∧
    ((modeTarget AppMode.TREE = 1 ↔ AppMode.TREE = AppMode.EXPLODE) ∧
     (modeTarget AppMode.TREE = 0 ↔ AppMode.TREE = AppMode.TREE) ∧
     (∀ delta : ℝ, transitionStep AppMode.TREE (1:ℝ) delta =
       lerp 1 (modeTarget AppMode.TREE) (delta * 2.5)) ∧
     |lerp (1:ℝ) 0 (1/2) - 0| ≤ |(1:ℝ) - 0| ∧
     ((1:ℝ) ≠ 0 → 0 < (1/2:ℝ) → |lerp (1:ℝ) 0 (1/2) - 0| < |(1:ℝ) - 0|)) :=
  ⟨⟨by norm_num, by norm_num⟩,
    transition_update_contracts AppMode.TREE 1 0 (1/2) (by norm_num) (by norm_num)⟩

/-- Helper for C6: a single frame step keeps the transition inside [0, 1]
provided the frame delta lies in [0, 2/5], so that the smoothing factor
delta * 2.5 lies in [0, 1]. -/
theorem transitionStep_mem_Icc (mode : AppMode) (x delta : ℝ)
    (hx0 : 0 ≤ x) (hx1 : x ≤ 1) (hd0 : 0 ≤ delta) (hd1 : delta ≤ 2/5) :
    0 ≤ transitionStep mode x delta ∧ transitionStep mode x delta ≤ 1 := by
  have htv : modeTarget mode = 0 ∨ modeTarget mode = 1 := by
    cases mode <;> simp [modeTarget]
  unfold transitionStep lerp
  rcases htv with h | h <;> rw [h] <;> constructor <;> nlinarith

/-- Helper for C6: the fold underlying transitionRun preserves membership in
[0, 1] when every delta lies in [0, 2/5]. -/
theorem transitionFold_mem_Icc (frames : List (AppMode × ℝ)) :
    ∀ x : ℝ, 0 ≤ x → x ≤ 1 →
      (∀ p ∈ frames, 0 ≤ p.2 ∧ p.2 ≤ 2/5) →
      0 ≤ frames.foldl (fun acc fr => transitionStep fr.1 acc fr.2) x ∧
        frames.foldl (fun acc fr => transitionStep fr.1 acc fr.2) x ≤ 1 := by
  induction frames with
  | nil => intro x hx0 hx1 _; exact ⟨hx0, hx1⟩
  | cons p rest ih =>
      intro x hx0 hx1 hall
      have hp := hall p (List.mem_cons_self p rest)
      have hstep := transitionStep_mem_Icc p.1 x p.2 hx0 hx1 hp.1 hp.2
      simpa using ih (transitionStep p.1 x p.2) hstep.1 hstep.2
        (fun q hq => hall q (List.mem_cons_of_mem p hq))

/-- C6 counterexample: the claim quantifies over all deltas that are merely
nonnegative, but a single EXPLODE frame with delta = 1 drives the stored
transition value to 2.5, outside [0, 1], because the smoothing factor
delta * 2.5 is not clamped. -/
theorem transitionRun_escapes_unit_interval :
    transitionRun [(AppMode.EXPLODE, 1)] = 2.5 ∧
    ¬ (0 ≤ transitionRun [(AppMode.EXPLODE, 1)] ∧
       transitionRun [(AppMode.EXPLODE, 1)] ≤ 1) := by
  constructor
  · simp [transitionRun, transitionStep, lerp, modeTarget]
  · intro h
    have := h.2
    simp [transitionRun, transitionStep, lerp, modeTarget] at this
    norm_num at this

/-- C6 (amended): starting from its initial value 0, the transition value
remains in [0, 1] after every per-frame update, for every sequence of modes
and every sequence of frame deltas lying in [0, 2/5] (so that the smoothing
factor delta * 2.5 stays in [0, 1]). -/
theorem transitionRun_mem_unit_interval (frames : List (AppMode × ℝ))
    (h : ∀ p ∈ frames, 0 ≤ p.2 ∧ p.2 ≤ 2/5) :
    0 ≤ transitionRun frames ∧ transitionRun frames ≤ 1 :=
  transitionFold_mem_Icc frames 0 le_rfl zero_le_one h

/-- Witness instantiating the amended C6 theorem on a two-frame run. -/
theorem transitionRun_mem_unit_interval_witness :
    (∀ p ∈ [(AppMode.EXPLODE, (1/5 : ℝ)), (AppMode.TREE, (2/5 : ℝ))],
      0 ≤ p.2 ∧ p.2 ≤ 2/5) ∧
    (0 ≤ transitionRun [(AppMode.EXPLODE, (1/5 : ℝ)), (AppMode.TREE, (2/5 : ℝ))] ∧
      transitionRun [(AppMode.EXPLODE, (1/5 : ℝ)), (AppMode.TREE, (2/5 : ℝ))] ≤ 1) :=
  ⟨by intro p hp; simp at hp; rcases hp with h | h <;> rw [h] <;> norm_num,
    transitionRun_mem_unit_interval _
      (by intro p hp; simp at hp; rcases hp with h | h <;> rw [h] <;> norm_num)⟩

/-- Helper: the distance from the vertical axis of a point with horizontal
components cos c * r and sin c * r is r, for nonnegative r. -/
theorem circle_dist (c r : ℝ) (hr : 0 ≤ r) :
    Real.sqrt ((Real.cos c * r) ^ 2 + (Real.sin c * r) ^ 2) = r := by
  have h := Real.sin_sq_add_cos_sq c
  have harg : (Real.cos c * r) ^ 2 + (Real.sin c * r) ^ 2 = r ^ 2 := by
    linear_combination r ^ 2 * h
  rw [harg, Real.sqrt_sq hr]

/-- Helper: the Euclidean norm of the spherical-coordinate point with radial
coordinate r is r, for nonnegative r. -/
theorem sphere_norm (r th ph : ℝ) (hr : 0 ≤ r) :
    Real.sqrt ((r * Real.sin ph * Real.cos th) ^ 2 +
      (r * Real.sin ph * Real.sin th) ^ 2 + (r * Real.cos ph) ^ 2) = r := by
  have h1 := Real.sin_sq_add_cos_sq th
  have h2 := Real.sin_sq_add_cos_sq ph
  have harg : (r * Real.sin ph * Real.cos th) ^ 2 +
      (r * Real.sin ph * Real.sin th) ^ 2 + (r * Real.cos ph) ^ 2 = r ^ 2 := by
    linear_combination (r ^ 2 * (Real.sin ph) ^ 2) * h1 + r ^ 2 * h2
  rw [harg, Real.sqrt_sq hr]

/-- C3: for every nonnegative radius and draws u, v, w in [0, 1], the point
returned by getRandomSpherePoint lies inside the sphere of that radius: its
Euclidean norm equals cbrt w * radius, hence is at most radius. -/
theorem getRandomSpherePoint_norm (radius u v w : ℝ)
    (hrad : 0 ≤ radius) (hw0 : 0 ≤ w) (hw1 : w ≤ 1) :
    normVec (getRandomSpherePoint radius u v w) = cbrt w * radius ∧
    normVec (getRandomSpherePoint radius u v w) ≤ radius := by
  have hc0 : 0 ≤ cbrt w := Real.rpow_nonneg hw0 _
  have hc1 : cbrt w ≤ 1 := Real.rpow_le_one hw0 hw1 (by norm_num)
  have hr0 : 0 ≤ cbrt w * radius := mul_nonneg hc0 hrad
  have hmain : normVec (getRandomSpherePoint radius u v w) = cbrt w * radius := by
    have := sphere_norm (cbrt w * radius) (2 * Real.pi * u)
      (Real.arccos (2 * v - 1)) hr0
    exact this
  exact ⟨hmain, hmain ▸ mul_le_of_le_one_left hrad hc1⟩

/-- Witness instantiating the sphere-point theorem at radius 1 and draws 0. -/
theorem getRandomSpherePoint_norm_witness :
    (0 : ℝ) ≤ 1 ∧ (0 : ℝ) ≤ 0 ∧ (0 : ℝ) ≤ 1 ∧
    (normVec (getRandomSpherePoint 1 0 0 0) = cbrt 0 * 1 ∧
      normVec (getRandomSpherePoint 1 0 0 0) ≤ 1) :=
  ⟨by norm_num, le_rfl, by norm_num,
    getRandomSpherePoint_norm 1 0 0 0 (by norm_num) le_rfl (by norm_num)⟩

/-- C4: for 0 <= index < total, positive height and nonnegative radiusBase,
getTreePosition places the particle at column height (index/total) * height
above yOffset, inside [0, height), and at horizontal distance
max 0 (radiusBase * (1 - index/total) + noise) from the axis, where the noise
(u - 0.5) * 0.5 lies in [-0.25, 0.25]; the distance is nonnegative and at most
radiusBase * (1 - index/total) + 0.25, a noise-thickened cone narrowing
linearly to the top. -/
theorem getTreePosition_in_cone (index total : ℕ) (radiusBase height yOffset u : ℝ)
    (hit : index < total) (hh : 0 < height) (hr : 0 ≤ radiusBase)
    (hu0 : 0 ≤ u) (hu1 : u < 1) :
    (getTreePosition index total radiusBase height yOffset u).y =
      ((index : ℝ) / (total : ℝ)) * height + yOffset ∧
    0 ≤ (getTreePosition index total radiusBase height yOffset u).y - yOffset ∧
    (getTreePosition index total radiusBase height yOffset u).y - yOffset < height ∧
    Real.sqrt ((getTreePosition index total radiusBase height yOffset u).x ^ 2 +
        (getTreePosition index total radiusBase height yOffset u).z ^ 2) =
      max 0 (radiusBase * (1 - (index : ℝ) / (total : ℝ)) + (u - 0.5) * 0.5) ∧
    -0.25 ≤ (u - 0.5) * 0.5 ∧ (u - 0.5) * 0.5 ≤ 0.25 ∧
    0 ≤ Real.sqrt ((getTreePosition index total radiusBase height yOffset u).x ^ 2 +
        (getTreePosition index total radiusBase height yOffset u).z ^ 2) ∧
    Real.sqrt ((getTreePosition index total radiusBase height yOffset u).x ^ 2 +
        (getTreePosition index total radiusBase height yOffset u).z ^ 2) ≤
      radiusBase * (1 - (index : ℝ) / (total : ℝ)) + 0.25 := by
  have htotpos : (0 : ℝ) < (total : ℝ) := by
    exact_mod_cast Nat.lt_of_le_of_lt (Nat.zero_le index) hit
  have hq0 : 0 ≤ (index : ℝ) / (total : ℝ) :=
    div_nonneg (Nat.cast_nonneg _) htotpos.le
  have hq1 : (index : ℝ) / (total : ℝ) < 1 :=
    (div_lt_one htotpos).mpr (by exact_mod_cast hit)
  have hcancel : (((index : ℝ) / (total : ℝ)) * height) / height =
      (index : ℝ) / (total : ℝ) := by
    rw [mul_div_assoc, div_self hh.ne', mul_one]
  have hx : (getTreePosition index total radiusBase height yOffset u).x =
      Real.cos ((index : ℝ) * (Real.pi * (3 - Real.sqrt 5))) *
        max 0 (radiusBase *
          (1 - (((index : ℝ) / (total : ℝ)) * height) / height) + (u - 0.5) * 0.5) := rfl
  have hz : (getTreePosition index total radiusBase height yOffset u).z =
      Real.sin ((index : ℝ) * (Real.pi * (3 - Real.sqrt 5))) *
        max 0 (radiusBase *
          (1 - (((index : ℝ) / (total : ℝ)) * height) / height) + (u - 0.5) * 0.5) := rfl
  have hyc : (getTreePosition index total radiusBase height yOffset u).y =
      ((index : ℝ) / (total : ℝ)) * height + yOffset := rfl
  rw [hcancel] at hx hz
  have hfr0 : 0 ≤ max 0 (radiusBase *
      (1 - (index : ℝ) / (total : ℝ)) + (u - 0.5) * 0.5) := le_max_left 0 _
  have hdist : Real.sqrt ((getTreePosition index total radiusBase height yOffset u).x ^ 2 +
      (getTreePosition index total radiusBase height yOffset u).z ^ 2) =
      max 0 (radiusBase * (1 - (index : ℝ) / (total : ℝ)) + (u - 0.5) * 0.5) := by
    rw [hx, hz]
    exact circle_dist ((index : ℝ) * (Real.pi * (3 - Real.sqrt 5))) _ hfr0
  have hrAtY : 0 ≤ radiusBase * (1 - (index : ℝ) / (total : ℝ)) :=
    mul_nonneg hr (by linarith)
  refine ⟨hyc, ?_, ?_, hdist, by linarith, by linarith, ?_, ?_⟩
  · rw [hyc]; have := mul_nonneg hq0 hh.le; linarith
  · rw [hyc]
    have := mul_lt_mul_of_pos_right hq1 hh
    rw [one_mul] at this
    linarith
  · exact Real.sqrt_nonneg _
  · rw [hdist]
    exact max_le (by linarith) (by linarith)

/-- Witness instantiating the cone theorem at index 0 of 1 particle, base
radius 1, height 1, offset 0 and noise draw 0. -/
theorem getTreePosition_in_cone_witness :
    0 ≤ Real.sqrt ((getTreePosition 0 1 1 1 0 0).x ^ 2 +
      (getTreePosition 0 1 1 1 0 0).z ^ 2) ∧
    Real.sqrt ((getTreePosition 0 1 1 1 0 0).x ^ 2 +
      (getTreePosition 0 1 1 1 0 0).z ^ 2) ≤
        1 * (1 - (0 : ℕ) / ((1 : ℕ) : ℝ)) + 0.25 :=
  ⟨(getTreePosition_in_cone 0 1 1 1 0 0 Nat.zero_lt_one one_pos zero_le_one
      le_rfl zero_lt_one).2.2.2.2.2.2.1,
   (getTreePosition_in_cone 0 1 1 1 0 0 Nat.zero_lt_one one_pos zero_le_one
      le_rfl zero_lt_one).2.2.2.2.2.2.2⟩

/-- C7: getRibbonPosition deterministically returns
(cos(2 pi turns t) * r, t * height + yOffset, sin(2 pi turns t) * r) with
r = radiusBase * (1 - t) + 0.2; for t in [0, 1] and nonnegative radiusBase its
distance from the axis is exactly r, which tapers linearly from
radiusBase + 0.2 at t = 0 down to 0.2 at t = 1. -/
theorem getRibbonPosition_spec (t radiusBase height turns yOffset : ℝ)
    (ht0 : 0 ≤ t) (ht1 : t ≤ 1) :
    (getRibbonPosition t radiusBase height turns yOffset).x =
      Real.cos (2 * Real.pi * turns * t) * (radiusBase * (1 - t) + 0.2) ∧
    (getRibbonPosition t radiusBase height turns yOffset).y = t * height + yOffset ∧
    (getRibbonPosition t radiusBase height turns yOffset).z =
      Real.sin (2 * Real.pi * turns * t) * (radiusBase * (1 - t) + 0.2) ∧
    (0 ≤ radiusBase →
      Real.sqrt ((getRibbonPosition t radiusBase height turns yOffset).x ^ 2 +
          (getRibbonPosition t radiusBase height turns yOffset).z ^ 2) =
        radiusBase * (1 - t) + 0.2) ∧
    radiusBase * (1 - (0 : ℝ)) + 0.2 = radiusBase + 0.2 ∧
    radiusBase * (1 - (1 : ℝ)) + 0.2 = 0.2 := by
  have hangle : t * Real.pi * 2 * turns = 2 * Real.pi * turns * t := by ring
  have hx : (getRibbonPosition t radiusBase height turns yOffset).x =
      Real.cos (t * Real.pi * 2 * turns) * (radiusBase * (1 - t) + 0.2) := rfl
  have hz : (getRibbonPosition t radiusBase height turns yOffset).z =
      Real.sin (t * Real.pi * 2 * turns) * (radiusBase * (1 - t) + 0.2) := rfl
  rw [hangle] at hx hz
  refine ⟨hx, rfl, hz, ?_, by ring, by ring⟩
  intro hrb
  have hr0 : (0 : ℝ) ≤ radiusBase * (1 - t) + 0.2 := by
    have := mul_nonneg hrb (by linarith : (0 : ℝ) ≤ 1 - t)
    linarith
  rw [hx, hz]
  exact circle_dist (2 * Real.pi * turns * t) _ hr0

/-- Witness instantiating the ribbon theorem at the bottom of the spiral. -/
theorem getRibbonPosition_spec_witness :
    (getRibbonPosition 0 1 1 1 0).y = 0 * 1 + 0 ∧
    Real.sqrt ((getRibbonPosition 0 1 1 1 0).x ^ 2 +
      (getRibbonPosition 0 1 1 1 0).z ^ 2) = 1 * (1 - 0) + 0.2 :=
  ⟨(getRibbonPosition_spec 0 1 1 1 0 le_rfl zero_le_one).2.1,
   (getRibbonPosition_spec 0 1 1 1 0 le_rfl zero_le_one).2.2.2.1 zero_le_one⟩

/-- C2: for a frame with a detected hand, the classifier produces exactly the
two signals the spec names, with the exact thresholds of the code (pinch:
thumb-index distance below 0.08; open: average fingertip-to-wrist distance
above 0.3 and not pinching), and the triggers match the spec mapping: a pinch
fires TREE (assemble) and an open hand fires EXPLODE. -/
theorem gesture_classifier_spec (lm : Hand) :
    (isPinching lm ↔ pinchDistance lm < 0.08) ∧
    (isOpen lm ↔ (avgTipDist lm > 0.3 ∧ ¬ isPinching lm)) ∧
    (isPinching lm → AppMode.TREE ∈ firedModes lm) ∧
    (isOpen lm → AppMode.EXPLODE ∈ firedModes lm) := by
  refine ⟨Iff.rfl, Iff.rfl, fun hp => ?_, fun ho => ?_⟩
  · simp [firedModes, hp]
  · simp [firedModes, ho]

/-- Witness instantiating the classifier theorem: the all-at-origin hand
pinches and fires TREE, the spread hand is open and fires EXPLODE. -/
theorem gesture_classifier_spec_witness :
    AppMode.TREE ∈ firedModes lmPinch ∧ AppMode.EXPLODE ∈ firedModes lmOpen := by
  have hpinch : isPinching lmPinch := by
    simp [isPinching, pinchDistance, hypot, lmPinch]
    norm_num
  have hnp : ¬ isPinching lmOpen := by
    simp [isPinching, pinchDistance, hypot, lmOpen]
    norm_num
  have hopen : isOpen lmOpen := by
    refine ⟨?_, hnp⟩
    simp [avgTipDist, hypot, lmOpen]
    norm_num
  exact ⟨(gesture_classifier_spec lmPinch).2.2.1 hpinch,
         (gesture_classifier_spec lmOpen).2.2.2 hopen⟩

/-- C9: the two gesture signals are mutually exclusive by construction (isOpen
conjoins the negation of isPinching), so at most one mode trigger fires per
processed frame. -/
theorem gesture_signals_exclusive (lm : Hand) :
    ¬ (isPinching lm ∧ isOpen lm) ∧ (firedModes lm).length ≤ 1 := by
  constructor
  · rintro ⟨hp, ho⟩
    exact ho.2 hp
  · by_cases hp : isPinching lm
    · have ho : ¬ isOpen lm := fun ho => ho.2 hp
      simp [firedModes, hp, ho]
    · by_cases ho : isOpen lm <;> simp [firedModes, hp, ho]

/-- C8: a frame update reads the startup data and writes only the derived
quantities: the three per-particle data lists are returned unchanged, every
instance transform is a pure function of the untouched data, and the enlarged
ribbon explode target is computed on a scaled copy, so the stored explodePos
of every ribbon particle survives every frame verbatim. -/
theorem frame_preserves_particle_data (mode : AppMode)
    (delta e g : ℝ) (st : TreeState) :
    (runFrame mode delta e g st).leavesData = st.leavesData ∧
    (runFrame mode delta e g st).ornamentsData = st.ornamentsData ∧
    (runFrame mode delta e g st).ribbonData = st.ribbonData ∧
    (runFrame mode delta e g st).ribbonMat =
      st.ribbonData.mapIdx
        (fun i d => ribbonTransform e (transitionStep mode st.transition delta) i d) ∧
    (∀ (e' t' : ℝ) (i : ℕ) (d : Particle),
      (ribbonTransform e' t' i d).position =
        lerpVec d.treePos (smulVec d.explodePos 1.5) t') :=
  ⟨rfl, rfl, rfl, rfl, fun _ _ _ _ => rfl⟩

/-- C10: every generated particle scale is strictly positive and bounded: for
a scale draw in [0, 1), leaf scales lie in [0.05, 0.2), ornament scales lie in
[0.02, 0.07), and every ribbon scale is exactly 0.08. -/
theorem particle_scales_bounded (i : ℕ) (uTree uY u v w uScale : ℝ)
    (h0 : 0 ≤ uScale) (h1 : uScale < 1) :
    0.05 ≤ (leafDatum i uTree u v w uScale).scale ∧
    (leafDatum i uTree u v w uScale).scale < 0.2 ∧
    0.02 ≤ (ornamentDatum i uTree uY u v w uScale).scale ∧
    (ornamentDatum i uTree uY u v w uScale).scale < 0.07 ∧
    (ribbonDatum i u v w).scale = 0.08 := by
  refine ⟨?_, ?_, ?_, ?_, rfl⟩ <;>
    simp only [leafDatum, ornamentDatum] <;> nlinarith

/-- Witness instantiating the scale-bounds theorem at the zero draw. -/
theorem particle_scales_bounded_witness :
    (0 : ℝ) ≤ 0 ∧ (0 : ℝ) < 1 ∧
    (0.05 ≤ (leafDatum 0 0 0 0 0 0).scale ∧
     (leafDatum 0 0 0 0 0 0).scale < 0.2 ∧
     0.02 ≤ (ornamentDatum 0 0 0 0 0 0 0).scale ∧
     (ornamentDatum 0 0 0 0 0 0 0).scale < 0.07 ∧
     (ribbonDatum 0 0 0 0).scale = 0.08) :=
  ⟨le_rfl, zero_lt_one,
    particle_scales_bounded 0 0 0 0 0 0 0 le_rfl zero_lt_one⟩
